import Mathlib

/-!
# Network Latency Analyzer — verification of the measurement/aggregation core

Shallow embedding of the statistics, scoring, probing and comparison logic of
the Network-Latency-Analyzer repository (the frontend `NetworkAnalyzer` and
`EnhancedNetworkAnalyzer` classes and `backend/server.js`).

Modelling conventions:
* JavaScript numbers are modelled as exact rationals (`ℚ`); integer-valued
  quantities (counters, the clamped quality score) as `ℕ`/`ℤ`.
* JavaScript arrays are `List`; the `null` entries that `performSingleTest`
  pushes into `testResults` on failure are `Option.none`.
* `NaN` results (e.g. `percentile` of an empty array) are `Option.none`.
* `[...values].sort((a, b) => a - b)` and `values.slice().sort((a, b) => a - b)`
  are modelled by an ascending insertion sort of the list value; only the
  sortedness and permutation semantics of the JavaScript sort are relied on.
-/

namespace NetworkAnalyzer

/-- JavaScript `Math.round`: nearest integer, halves rounding toward positive
infinity, i.e. `⌊x + 1/2⌋`. -/
def jsRound (q : ℚ) : ℤ := ⌊q + 1/2⌋

/-- JavaScript `Math.min(...values)` over a non-empty spread list (the source
only applies it to non-empty arrays, e.g. `Math.min(...validResults)` in
`calculateAdvancedMetrics`); `0` for `[]`. -/
def jsMin : List ℚ → ℚ
  | [] => 0
  | a :: l => l.foldl min a

/-- JavaScript `Math.max(...values)` over a non-empty spread list; `0` for `[]`. -/
def jsMax : List ℚ → ℚ
  | [] => 0
  | a :: l => l.foldl max a

/-- Ascending numeric sort, `arr.sort((a, b) => a - b)` applied to a fresh
copy of the array. -/
def sortAsc (values : List ℚ) : List ℚ := values.insertionSort (· ≤ ·)

/-- `getMedian(values)` from the frontend classes:
`const sorted = [...values].sort((a, b) => a - b);`
`const mid = Math.floor(sorted.length / 2);`
`return sorted.length % 2 ? sorted[mid] : (sorted[mid - 1] + sorted[mid]) / 2;` -/
def getMedian (values : List ℚ) : ℚ :=
  let sorted := sortAsc values
  let mid := sorted.length / 2
  if sorted.length % 2 = 1 then sorted.getD mid 0
  else (sorted.getD (mid - 1) 0 + sorted.getD mid 0) / 2

/-- The population variance computed inside `getStdDev(values)`:
`const avg = values.reduce((a, b) => a + b, 0) / values.length;`
`const variance = values.reduce((acc, val) => acc + Math.pow(val - avg, 2), 0) / values.length;`
The source finally returns `Math.sqrt(variance)`; the square root is
irrational-valued in general and none of the verified claims depends on it,
so the embedding stops at the variance. -/
def getStdDevVariance (values : List ℚ) : ℚ :=
  let avg := values.foldl (· + ·) (0 : ℚ) / values.length
  (values.foldl (fun acc val => acc + (val - avg) ^ 2) (0 : ℚ)) / values.length

/-- `percentile(values, p)` from the frontend classes:
`if (!values?.length) return NaN;` (modelled as `none`)
`const sorted = values.slice().sort((a, b) => a - b);`
`const idx = (sorted.length - 1) * p;`
`const lo = Math.floor(idx); const hi = Math.ceil(idx);`
`return lo === hi ? sorted[lo] : sorted[lo] + (sorted[hi] - sorted[lo]) * (idx - lo);` -/
def percentile (values : List ℚ) (p : ℚ) : Option ℚ :=
  if values.length = 0 then none
  else
    let sorted := sortAsc values
    let idx : ℚ := ((sorted.length : ℚ) - 1) * p
    let lo := ⌊idx⌋
    let hi := ⌈idx⌉
    if lo = hi then some (sorted.getD lo.toNat 0)
    else some (sorted.getD lo.toNat 0 +
      (sorted.getD hi.toNat 0 - sorted.getD lo.toNat 0) * (idx - (lo : ℚ)))

/-- The `differences` array built by `calculateJitter`:
`for (let i = 1; i < values.length; i++) differences.push(Math.abs(values[i] - values[i - 1]));` -/
def consecDiffs : List ℚ → List ℚ
  | a :: b :: rest => |b - a| :: consecDiffs (b :: rest)
  | _ => []

/-- `calculateJitter(values)` from the frontend classes:
`if (values.length < 2) return 0;` then the mean of the `differences` array. -/
def calculateJitter (values : List ℚ) : ℚ :=
  if values.length < 2 then 0
  else (consecDiffs values).sum / (consecDiffs values).length

/-- `calculateJitter(times)` from `backend/server.js`: returns 0 when the raw
array has fewer than two entries, filters out `null`/`undefined`, returns 0
again when fewer than two valid entries remain, else the mean absolute
successive difference of the valid entries. -/
def calculateJitterBackend (times : List (Option ℚ)) : ℚ :=
  if times.length < 2 then 0
  else
    let validTimes := times.filterMap id
    if validTimes.length < 2 then 0
    else (consecDiffs validTimes).sum / (consecDiffs validTimes).length

/-- The weighted-linear score at the heart of `calculateQualityScore`:
`const Ln = Math.min(avg / 300, 1);`
`const Jn = Math.min(jitter / 100, 1);`
`const Pn = Math.min(loss / 10, 1);`
`const score = Math.round(100 * (1 - (0.60 * Ln + 0.25 * Jn + 0.15 * Pn)));`
`return Math.max(0, Math.min(score, 100));` -/
def scoreFormula (avg jitter loss : ℚ) : ℤ :=
  let ln := min (avg / 300) 1
  let jn := min (jitter / 100) 1
  let pn := min (loss / 10) 1
  let score := jsRound (100 * (1 - (0.60 * ln + 0.25 * jn + 0.15 * pn)))
  max 0 (min score 100)

/-- `calculateQualityScore()` (identical text in `NetworkAnalyzer` and
`EnhancedNetworkAnalyzer`): filters the successful results, returns `0` when
there are none, else applies the weighted formula to the average latency, the
jitter and the loss percentage `failCount / testCount * 100`. -/
def calculateQualityScore (testResults : List (Option ℚ))
    (failCount testCount : ℕ) : ℤ :=
  let validResults := testResults.filterMap id
  if validResults.length = 0 then 0
  else
    let avg := validResults.sum / validResults.length
    let jitter := calculateJitter validResults
    let loss := (failCount : ℚ) / (testCount : ℚ) * 100
    scoreFormula avg jitter loss

/-- The record returned by `getQualityGrade`. -/
structure QualityGrade where
  grade : String
  color : String
  label : String
deriving DecidableEq

/-- `getQualityGrade(score)` (identical text in both frontend classes). -/
def getQualityGrade (score : ℤ) : QualityGrade :=
  if score ≥ 95 then ⟨"A+", "#4ecdc4", "Excellent"⟩
  else if score ≥ 90 then ⟨"A", "#4ecdc4", "Very Good"⟩
  else if score ≥ 75 then ⟨"B", "#52c41a", "Good"⟩
  else if score ≥ 60 then ⟨"C", "#ffd93d", "Fair"⟩
  else if score ≥ 40 then ⟨"D", "#ff9800", "Poor"⟩
  else ⟨"F", "#ff6b6b", "Very Poor"⟩

/-- Outcome of the underlying `fetch(url, (method HEAD, no-cors, no-cache,
signal))` call inside `measureLatency`, abstracted to what the surrounding
code observes: either the request completes (with total elapsed time
`endTime - startTime`), or it rejects — timeout abort or any transport
error — with the elapsed time at rejection. -/
inductive FetchOutcome
  | success (elapsed : ℚ)
  | failure (elapsed : ℚ)
deriving DecidableEq

/-- The exception propagated out of `measureLatency` (rethrow of the fetch
error) as observed by `performSingleTest`'s `catch`. -/
inductive ProbeError
  | fetchError
deriving DecidableEq

/-- `measureLatency()` from the frontend classes.  On a completed fetch it
returns `endTime - startTime`.  In the `catch` block it computes
`elapsed = endTime - startTime` and then:
`if (elapsed < timeout) return elapsed;` — the partial elapsed time is
returned as a successful latency — `throw error;` otherwise. -/
def measureLatency (timeoutMs : ℚ) : FetchOutcome → Except ProbeError ℚ
  | .success elapsed => .ok elapsed
  | .failure elapsed =>
      if elapsed < timeoutMs then .ok elapsed else .error .fetchError

/-- The fields of the analyzer objects that `performSingleTest` reads and
writes (constructor initialisation: `testResults = []`, `testCount = 0`,
`successCount = 0`, `failCount = 0`).  The chart/DOM fields are out of scope
of the verified claims. -/
structure AnalyzerState where
  testCount : ℕ
  successCount : ℕ
  failCount : ℕ
  testResults : List (Option ℚ)
deriving DecidableEq

/-- The constructor / `startTest` reset state. -/
def initState : AnalyzerState := ⟨0, 0, 0, []⟩

/-- Outcome of one probe as observed by the base class `performSingleTest`:
`measureLatency` either resolves with a number or throws. -/
inductive ProbeResult
  | ok (latency : ℚ)
  | err
deriving DecidableEq

/-- `NetworkAnalyzer.performSingleTest()`: `this.testCount++`, then on a
resolved non-null latency `this.successCount++; this.testResults.push(latency)`,
and in the `catch` block `this.failCount++; this.testResults.push(null)`.
(`measureLatency` never resolves with `null`, so the base class has exactly
these two branches.) -/
def performSingleTest (s : AnalyzerState) : ProbeResult → AnalyzerState
  | .ok latency =>
      { s with testCount := s.testCount + 1,
               successCount := s.successCount + 1,
               testResults := s.testResults ++ [some latency] }
  | .err =>
      { s with testCount := s.testCount + 1,
               failCount := s.failCount + 1,
               testResults := s.testResults ++ [none] }

/-- Outcome of one probe as observed by `EnhancedNetworkAnalyzer.performSingleTest`:
`backendPing()` resolves with `data.time` when `data.alive`, with `null` when
the backend answers `alive: false`, or the awaited chain throws. -/
inductive EnhancedProbeResult
  | value (latency : ℚ)
  | nullLatency
  | err
deriving DecidableEq

/-- `EnhancedNetworkAnalyzer.performSingleTest()`: `this.testCount++`; when
the awaited latency is non-null, `this.successCount++` and
`this.testResults.push(latency)`; when it is `null` (backend reported
`alive: false`) the `if (latency !== null)` guard skips the whole success
block and there is no exception, so neither counter moves and nothing is
pushed; on a thrown error `this.failCount++; this.testResults.push(null)`. -/
def enhancedPerformSingleTest (s : AnalyzerState) : EnhancedProbeResult → AnalyzerState
  | .value latency =>
      { s with testCount := s.testCount + 1,
               successCount := s.successCount + 1,
               testResults := s.testResults ++ [some latency] }
  | .nullLatency => { s with testCount := s.testCount + 1 }
  | .err =>
      { s with testCount := s.testCount + 1,
               failCount := s.failCount + 1,
               testResults := s.testResults ++ [none] }

/-- The invariant of spec §3: `successCount + failCount == len(samples)`. -/
def countsInvariant (s : AnalyzerState) : Prop :=
  s.successCount + s.failCount = s.testResults.length

/-- One per-target comparison entry as built by
`EnhancedNetworkAnalyzer.fallbackDNSComparison` (its `results.push({...})`
fields). -/
structure FallbackEntry where
  server : String
  avg : ℚ
  min : ℚ
  max : ℚ
  jitter : ℚ
  successRate : ℚ
  packetLoss : ℚ
deriving DecidableEq

/-- The entry pushed for one server by `fallbackDNSComparison`, from the
server's 10 raw probe outcomes (`null` = failed probe):
`avg`, `min`, `max`, `jitter` over `validResults`,
`successRate = validResults.length / testResults.length * 100`,
`packetLoss = (testResults.length - validResults.length) / testResults.length * 100`. -/
def mkFallbackEntry (server : String) (testResults : List (Option ℚ)) : FallbackEntry :=
  let validResults := testResults.filterMap id
  { server := server
    avg := validResults.sum / validResults.length
    min := jsMin validResults
    max := jsMax validResults
    jitter := calculateJitter validResults
    successRate := (validResults.length : ℚ) / (testResults.length : ℚ) * 100
    packetLoss := ((testResults.length : ℚ) - (validResults.length : ℚ))
      / (testResults.length : ℚ) * 100 }

/-- The per-target collection loop of `fallbackDNSComparison` (and, with the
same `if (validResults.length > 0)` guard, of the base class `compareAllDNS`):
a target is pushed onto `results` only when it has at least one successful
probe; targets with zero successes are silently skipped.  The input pairs
each server with the outcomes of its probe loop. -/
def collectFallbackResults (targets : List (String × List (Option ℚ))) :
    List FallbackEntry :=
  targets.filterMap fun t =>
    if 0 < (t.2.filterMap id).length then some (mkFallbackEntry t.1 t.2) else none

/-- The caller-visible notifications emitted during a fallback DNS comparison
run, one constructor per `addLog` call site reachable from
`fallbackDNSComparison`/`displayComparisonResults`:
`testing s` for `Testing <server info>...`, `noResults` for
`⚠️ No comparison results available`, and `complete best` for
`✅ Comparison complete. Best: <name>`.  `excludedCount n` is the vocabulary
for a report of how many targets were excluded; no call site in the source
emits it. -/
inductive LogEvent
  | testing (server : String)
  | noResults
  | complete (best : String)
  | excludedCount (n : ℕ)
deriving DecidableEq

/-- Whether a log event reports an exclusion count to the caller. -/
def isExclusionReport : LogEvent → Bool
  | .excludedCount _ => true
  | _ => false

/-- Ascending sort of the entries by average latency, the
`results.sort(...)` of `displayComparisonResults` under the default sort key
`avg` (constructor: `this.currentSort = 'avg'`). -/
def sortFallbackByAvg (results : List FallbackEntry) : List FallbackEntry :=
  results.insertionSort fun a b => a.avg ≤ b.avg

/-- The first-ranked server name, used in the
`✅ Comparison complete. Best: ...` log line (`results[0]`). -/
def bestServer : List FallbackEntry → String
  | [] => ""
  | e :: _ => e.server

/-- `fallbackDNSComparison(dnsServers)` followed by
`displayComparisonResults(results)`, as a function of each server's probe
outcomes, returning the ranked result set together with every caller-visible
log event of the run.  `displayComparisonResults` returns early with the
`noResults` warning when `results` is empty, else ranks by the current sort
key (default `avg`) and logs the completion line; its HTML table shows one
rank/stat block per included entry and a winner line, and mentions the
excluded targets nowhere. -/
def fallbackDNSComparison (targets : List (String × List (Option ℚ))) :
    List FallbackEntry × List LogEvent :=
  let results := collectFallbackResults targets
  let testingLogs := targets.map fun t => LogEvent.testing t.1
  if results.length = 0 then ([], testingLogs ++ [LogEvent.noResults])
  else
    let ranked := sortFallbackByAvg results
    (ranked, testingLogs ++ [LogEvent.complete (bestServer ranked)])

/-- The selectable sort keys of the comparison view (`sortComparison` is
invoked from the sort buttons with `avg`, `p95`, `jitter`, `successRate` in
the base class and `avg`, `jitter`, `successRate`, `packetLoss` in the
enhanced class). -/
inductive SortKey
  | avg
  | jitter
  | successRate
  | packetLoss
  | p95
deriving DecidableEq

/-- A comparison result record carrying every numeric field the sort
comparator can be asked to read (`result[key]`): `compareAllDNS` entries
carry `avg`, `jitter`, `successRate`, `p95`; backend/fallback entries carry
`avg`, `jitter`, `successRate`, `packetLoss`. -/
structure SortEntry where
  server : String
  avg : ℚ
  jitter : ℚ
  successRate : ℚ
  packetLoss : ℚ
  p95 : ℚ
deriving DecidableEq

/-- `result[key]` for a sort key. -/
def keyVal : SortKey → SortEntry → ℚ
  | .avg, e => e.avg
  | .jitter, e => e.jitter
  | .successRate, e => e.successRate
  | .packetLoss, e => e.packetLoss
  | .p95, e => e.p95

/-- The sort order induced by the comparator of
`displayComparisonResults`/`sortComparison`:
`if (key === 'successRate') return b[key] - a[key]; return a[key] - b[key];`
`a` precedes `b` exactly when the comparator is ≤ 0, i.e. descending for
`successRate` and ascending for every other key. -/
def comparisonLE : SortKey → SortEntry → SortEntry → Prop
  | .successRate, a, b => b.successRate ≤ a.successRate
  | k, a, b => keyVal k a ≤ keyVal k b

instance comparisonLE.instDecidable (k : SortKey) : DecidableRel (comparisonLE k) :=
  fun a b =>
    match k with
    | .avg => inferInstanceAs (Decidable (a.avg ≤ b.avg))
    | .jitter => inferInstanceAs (Decidable (a.jitter ≤ b.jitter))
    | .successRate => inferInstanceAs (Decidable (b.successRate ≤ a.successRate))
    | .packetLoss => inferInstanceAs (Decidable (a.packetLoss ≤ b.packetLoss))
    | .p95 => inferInstanceAs (Decidable (a.p95 ≤ b.p95))

/-- `sortComparison(key)`: re-sorts the already-collected
`this.comparisonResults` with the comparator for `key`.  No probe is issued:
the result set is a pure rearrangement of the stored entries. -/
def sortComparison (results : List SortEntry) (k : SortKey) : List SortEntry :=
  results.insertionSort (comparisonLE k)

/-- `this.currentSort = 'avg'` in the constructor: the default sort key. -/
def defaultSortKey : SortKey := .avg

/-- `getMedian` together with the post-call contents of its argument array:
the only mutating operation in its body is `Array.prototype.sort`, and the
receiver of that sort is the fresh copy `[...values]`, never `values`
itself, so the argument's contents after the call are its original
contents. -/
def getMedianWithFrame (values : List ℚ) : ℚ × List ℚ :=
  let copy := values
  let sorted := sortAsc copy
  let mid := sorted.length / 2
  (if sorted.length % 2 = 1 then sorted.getD mid 0
   else (sorted.getD (mid - 1) 0 + sorted.getD mid 0) / 2,
   values)

/-- `getStdDev` with the post-call contents of its argument array: its body
is two `reduce` folds and a `Math.sqrt`, none of which mutates the array. -/
def getStdDevWithFrame (values : List ℚ) : ℚ × List ℚ :=
  (getStdDevVariance values, values)

/-- `percentile` with the post-call contents of its argument array: the sort
receiver is `values.slice()`, a fresh copy, never `values` itself. -/
def percentileWithFrame (values : List ℚ) (p : ℚ) : Option ℚ × List ℚ :=
  (percentile values p, values)

/-- The quality score exactly as the specification words it: the rounded
weighted formula, then clamped to the interval `[0, 100]`.  Stated
independently of `scoreFormula` so that the two can be compared. -/
def scoreSpec (avg jitter lossPercent : ℚ) : ℤ :=
  min (max (jsRound (100 * (1 - (0.60 * min (avg / 300) 1 +
    0.25 * min (jitter / 100) 1 + 0.15 * min (lossPercent / 10) 1)))) 0) 100

/-- Jitter exactly as the specification words it: the mean of
`|S[i] - S[i-1]|` over consecutive samples in arrival order for
`i = 1 .. |S|-1` (i.e. divided by `|S| - 1`), and `0` when `|S| < 2`. -/
def jitterSpec (S : List ℚ) : ℚ :=
  if S.length < 2 then 0
  else (List.zipWith (fun a b => |b - a|) S S.tail).sum / ((S.length : ℚ) - 1)

/-- The percentile exactly as the specification words it: sort ascending,
fractional index `idx = (|S|-1) * p`, linear interpolation between the
elements at `⌊idx⌋` and `⌈idx⌉` (the general interpolation formula, with no
special case for an integral index). -/
def percentileSpec (S : List ℚ) (p : ℚ) : ℚ :=
  let sorted := sortAsc S
  let idx : ℚ := ((sorted.length : ℚ) - 1) * p
  let lo := ⌊idx⌋
  let hi := ⌈idx⌉
  sorted.getD lo.toNat 0 +
    (sorted.getD hi.toNat 0 - sorted.getD lo.toNat 0) * (idx - (lo : ℚ))

instance comparisonLE.instIsTotal (k : SortKey) : IsTotal SortEntry (comparisonLE k) :=
  ⟨fun a b => by cases k <;> exact le_total _ _⟩

instance comparisonLE.instIsTrans (k : SortKey) : IsTrans SortEntry (comparisonLE k) :=
  ⟨fun a b c hab hbc => by
    cases k
    case successRate => exact le_trans hbc hab
    all_goals exact le_trans hab hbc⟩

/-- The all-success target of the two-target comparison scenario: ten probes,
each succeeding with a 20 ms latency. -/
def allSuccessTarget : String × List (Option ℚ) := ("8.8.8.8", List.replicate 10 (some 20))

/-- The all-failure target of the two-target comparison scenario: ten probes,
each failing. -/
def allFailureTarget : String × List (Option ℚ) := ("1.1.1.1", List.replicate 10 none)

/-! ## Theorems -/

lemma clamp_comm (x : ℤ) : max 0 (min x 100) = min (max x 0) 100 := by omega

/-- C1.  The quality score equals the rounded weighted formula
`round(100 * (1 - (0.60*min(avg/300,1) + 0.25*min(jitter/100,1) +
0.15*min(loss/10,1))))` clamped to `[0, 100]`; the grade buckets over that
score use inclusive lower bounds 95→A+, 90→A, 75→B, 60→C, 40→D, else F;
`score(0,0,0) = 100` with grade A+ and `score(300,100,10) = 0` with
grade F. -/
theorem quality_score_formula_and_grade_buckets (avg jitter loss : ℚ) (s : ℤ) :
    scoreFormula avg jitter loss = scoreSpec avg jitter loss
    ∧ (95 ≤ s → (getQualityGrade s).grade = "A+")
    ∧ (90 ≤ s → s < 95 → (getQualityGrade s).grade = "A")
    ∧ (75 ≤ s → s < 90 → (getQualityGrade s).grade = "B")
    ∧ (60 ≤ s → s < 75 → (getQualityGrade s).grade = "C")
    ∧ (40 ≤ s → s < 60 → (getQualityGrade s).grade = "D")
    ∧ (s < 40 → (getQualityGrade s).grade = "F")
    ∧ scoreFormula 0 0 0 = 100
    ∧ (getQualityGrade (scoreFormula 0 0 0)).grade = "A+"
    ∧ scoreFormula 300 100 10 = 0
    ∧ (getQualityGrade (scoreFormula 300 100 10)).grade = "F" := by
  have h0 : scoreFormula 0 0 0 = 100 := by norm_num [scoreFormula, jsRound]
  have h1 : scoreFormula 300 100 10 = 0 := by norm_num [scoreFormula, jsRound]
  refine ⟨?_, ?_, ?_, ?_, ?_, ?_, ?_, h0, ?_, h1, ?_⟩
  · simp only [scoreFormula, scoreSpec]
    exact clamp_comm _
  · intro h
    simp only [getQualityGrade]
    split_ifs <;> first | rfl | (exfalso ; omega)
  · intro h h'
    simp only [getQualityGrade]
    split_ifs <;> first | rfl | (exfalso ; omega)
  · intro h h'
    simp only [getQualityGrade]
    split_ifs <;> first | rfl | (exfalso ; omega)
  · intro h h'
    simp only [getQualityGrade]
    split_ifs <;> first | rfl | (exfalso ; omega)
  · intro h h'
    simp only [getQualityGrade]
    split_ifs <;> first | rfl | (exfalso ; omega)
  · intro h
    simp only [getQualityGrade]
    split_ifs <;> first | rfl | (exfalso ; omega)
  · rw [h0] ; norm_num [getQualityGrade]
  · rw [h1] ; norm_num [getQualityGrade]

/-- Witness for C1 at `avg = jitter = loss = 0` and score `97`. -/
theorem quality_score_formula_witness :
    scoreFormula 0 0 0 = scoreSpec 0 0 0 ∧ (getQualityGrade 97).grade = "A+" :=
  ⟨(quality_score_formula_and_grade_buckets 0 0 0 97).1,
   (quality_score_formula_and_grade_buckets 0 0 0 97).2.1 (by norm_num)⟩

/-- C2 counterexample.  A transport error 100 ms into a probe with a 2000 ms
timeout is returned by `measureLatency` as a *successful* 100 ms latency
(`if (elapsed < timeout) return elapsed;` in its `catch` block), so a probe
that fails before the configured timeout has elapsed does produce a latency
value, contrary to the claim. -/
theorem early_abort_latency_counterexample :
    measureLatency 2000 (FetchOutcome.failure 100) = Except.ok 100 := rfl

/-- C2 amended.  A completed request yields its elapsed time as latency; a
transport error or abort whose elapsed time has reached the configured
timeout is rethrown (recorded as a failure with no latency); but a transport
error occurring strictly before the timeout has elapsed returns the partial
elapsed time as a successful latency, which then enters the success-only
latency statistics. -/
theorem early_abort_latency_amended (timeoutMs elapsed : ℚ) :
    measureLatency timeoutMs (FetchOutcome.success elapsed) = Except.ok elapsed
    ∧ (timeoutMs ≤ elapsed →
        measureLatency timeoutMs (FetchOutcome.failure elapsed)
          = Except.error ProbeError.fetchError)
    ∧ (elapsed < timeoutMs →
        measureLatency timeoutMs (FetchOutcome.failure elapsed)
          = Except.ok elapsed) := by
  refine ⟨rfl, fun h => ?_, fun h => ?_⟩
  · simp [measureLatency, not_lt.mpr h]
  · simp [measureLatency, h]

/-- Witness for C2 (amended) at `timeout = 2000`, `elapsed = 2500`. -/
theorem early_abort_latency_amended_witness :
    measureLatency 2000 (FetchOutcome.failure 2500)
      = Except.error ProbeError.fetchError :=
  (early_abort_latency_amended 2000 2500).2.1 (by norm_num)

/-- C9.  When the run has zero successful samples, `calculateQualityScore`
returns exactly `0` from its `if (validResults.length === 0) return 0;`
guard, before the weighted formula (and in particular before the loss
percentage `failCount / testCount * 100`) is ever evaluated, for every
failure count; the loss-only scoring `Ln = Jn = 0, Pn = 1` would instead
have produced `85`. -/
theorem zero_success_quality_score (testResults : List (Option ℚ))
    (failCount testCount : ℕ) (h : testResults.filterMap id = []) :
    calculateQualityScore testResults failCount testCount = 0
    ∧ scoreFormula 0 0 100 = 85 := by
  constructor
  · simp [calculateQualityScore, h]
  · norm_num [scoreFormula, jsRound]

/-- Witness for C9: a run of two probes, both failed. -/
theorem zero_success_quality_score_witness :
    calculateQualityScore [none, none] 2 2 = 0 :=
  (zero_success_quality_score [none, none] 2 2 rfl).1

lemma consecDiffs_eq_zipWith :
    ∀ l : List ℚ, consecDiffs l = List.zipWith (fun a b => |b - a|) l l.tail
  | [] => rfl
  | [_] => rfl
  | a :: b :: rest => by
      simp only [consecDiffs, consecDiffs_eq_zipWith (b :: rest), List.zipWith, List.tail]

lemma consecDiffs_length : ∀ l : List ℚ, (consecDiffs l).length = l.length - 1
  | [] => rfl
  | [_] => rfl
  | a :: b :: rest => by
      have := consecDiffs_length (b :: rest)
      simp only [consecDiffs, List.length_cons] at *
      omega

/-- C3.  `calculateJitter` is the mean of `|S[i] - S[i-1]|` over consecutive
samples in arrival order for `i = 1 .. |S|-1` and `0` when `|S| < 2`; the
backend `calculateJitter` agrees with it on every fully-successful sample
list; and `jitter([10, 50, 10]) = 40`. -/
theorem jitter_mean_successive_difference (S : List ℚ) :
    calculateJitter S = jitterSpec S
    ∧ (∀ T : List ℚ, calculateJitterBackend (T.map some) = calculateJitter T)
    ∧ calculateJitter [10, 50, 10] = 40 := by
  refine ⟨?_, ?_, by norm_num [calculateJitter, consecDiffs]⟩
  · by_cases hlen : S.length < 2
    · simp [calculateJitter, jitterSpec, hlen]
    · rw [calculateJitter, jitterSpec, if_neg hlen, if_neg hlen, consecDiffs_eq_zipWith]
      have hzl : (List.zipWith (fun a b : ℚ => |b - a|) S S.tail).length = S.length - 1 := by
        rw [List.length_zipWith, List.length_tail]
        omega
      rw [hzl, Nat.cast_sub (by omega)]
      norm_num
  · intro T
    have hfm : (T.map some).filterMap id = T := by
      rw [List.filterMap_map]
      simp
    rw [calculateJitter, calculateJitterBackend, List.length_map, hfm]
    by_cases hlen : T.length < 2
    · simp [hlen]
    · simp [hlen]

/-- C4.  `percentile` of a non-empty list sorts ascending, takes the
fractional index `idx = (|S|-1)*p` and linearly interpolates between the
elements at `⌊idx⌋` and `⌈idx⌉` (the `lo === hi` fast path agrees with the
general interpolation formula); `percentile([10,20,30,40], 0.5) = 25` and
`percentile([10], 0.95) = 10`. -/
theorem percentile_linear_interpolation (S : List ℚ) (p : ℚ) (hS : S ≠ [])
    (hp0 : 0 ≤ p) (hp1 : p ≤ 1) :
    percentile S p = some (percentileSpec S p)
    ∧ percentile [10, 20, 30, 40] (0.5 : ℚ) = some 25
    ∧ percentile [10] (0.95 : ℚ) = some 10 := by
  refine ⟨?_, ?_, ?_⟩
  · have hlen : S.length ≠ 0 := fun hl => hS (List.length_eq_zero.mp hl)
    simp only [percentile, percentileSpec, if_neg hlen]
    split_ifs with hfc
    · rw [← hfc]
      ring_nf
    · rfl
  · have hc : ⌈(3/2 : ℚ)⌉ = 2 := by rw [Int.ceil_eq_iff] ; norm_num
    have ht : Int.toNat 2 = 2 := rfl
    norm_num [percentile, sortAsc, List.insertionSort, List.orderedInsert, hc, ht]
  · norm_num [percentile, sortAsc, List.insertionSort, List.orderedInsert]

/-- Witness for C4 at `S = [10]`, `p = 0.95`. -/
theorem percentile_linear_interpolation_witness :
    percentile [10] (0.95 : ℚ) = some (percentileSpec [10] (0.95 : ℚ)) :=
  (percentile_linear_interpolation [10] (0.95 : ℚ) (List.cons_ne_nil _ _)
    (by norm_num) (by norm_num)).1

lemma performSingleTest_preserves {s : AnalyzerState} (h : countsInvariant s)
    (r : ProbeResult) : countsInvariant (performSingleTest s r) := by
  cases r <;> simp only [performSingleTest, countsInvariant, List.length_append,
    List.length_cons, List.length_nil] at * <;> omega

lemma enhancedPerformSingleTest_preserves {s : AnalyzerState} (h : countsInvariant s)
    (r : EnhancedProbeResult) : countsInvariant (enhancedPerformSingleTest s r) := by
  cases r <;> simp only [enhancedPerformSingleTest, countsInvariant, List.length_append,
    List.length_cons, List.length_nil] at * <;> omega

lemma foldl_performSingleTest_invariant :
    ∀ (os : List ProbeResult) (s : AnalyzerState), countsInvariant s →
      countsInvariant (os.foldl performSingleTest s)
  | [], _, h => h
  | r :: os, s, h =>
      foldl_performSingleTest_invariant os _ (performSingleTest_preserves h r)

lemma foldl_enhancedPerformSingleTest_invariant :
    ∀ (os : List EnhancedProbeResult) (s : AnalyzerState), countsInvariant s →
      countsInvariant (os.foldl enhancedPerformSingleTest s)
  | [], _, h => h
  | r :: os, s, h =>
      foldl_enhancedPerformSingleTest_invariant os _ (enhancedPerformSingleTest_preserves h r)

/-- C5 counterexample.  In `EnhancedNetworkAnalyzer.performSingleTest`, a
probe whose backend ping resolves with `alive: false` makes `backendPing`
return `null`; the `if (latency !== null)` guard then skips the success
block and no exception reaches the `catch`, so the probe attempt (the
`testCount` of the state moves from 0 to 1) appends *no* sample and
increments *neither* counter — refuting "each probe attempt appends exactly
one sample and increments exactly one of the two counters". -/
theorem probe_appends_one_sample_counterexample :
    (enhancedPerformSingleTest initState EnhancedProbeResult.nullLatency).testCount = 1
    ∧ (enhancedPerformSingleTest initState
        EnhancedProbeResult.nullLatency).testResults.length = 0
    ∧ (enhancedPerformSingleTest initState
        EnhancedProbeResult.nullLatency).successCount = 0
    ∧ (enhancedPerformSingleTest initState EnhancedProbeResult.nullLatency).failCount = 0 :=
  ⟨rfl, rfl, rfl, rfl⟩

/-- C5 amended.  `successCount + failCount = len(samples)` holds at every
point of every run of either analyzer; in the base `NetworkAnalyzer`, each
probe attempt appends exactly one sample (a latency on success, a `null`
marker on failure) and increments exactly one of the two counters; in the
`EnhancedNetworkAnalyzer`, a probe whose backend ping reports
`alive: false` appends no sample and increments neither counter (which
still preserves the invariant). -/
theorem counts_invariant_amended :
    (∀ outcomes : List ProbeResult,
        countsInvariant (outcomes.foldl performSingleTest initState))
    ∧ (∀ outcomes : List EnhancedProbeResult,
        countsInvariant (outcomes.foldl enhancedPerformSingleTest initState))
    ∧ (∀ (s : AnalyzerState) (r : ProbeResult),
        (performSingleTest s r).testResults.length = s.testResults.length + 1
        ∧ (performSingleTest s r).successCount + (performSingleTest s r).failCount
            = s.successCount + s.failCount + 1)
    ∧ (∀ s : AnalyzerState,
        (enhancedPerformSingleTest s EnhancedProbeResult.nullLatency).testResults
            = s.testResults
        ∧ (enhancedPerformSingleTest s EnhancedProbeResult.nullLatency).successCount
            = s.successCount
        ∧ (enhancedPerformSingleTest s EnhancedProbeResult.nullLatency).failCount
            = s.failCount) := by
  refine ⟨fun os => foldl_performSingleTest_invariant os initState rfl,
          fun os => foldl_enhancedPerformSingleTest_invariant os initState rfl,
          fun s r => ?_, fun s => ⟨rfl, rfl, rfl⟩⟩
  cases r <;> simp [performSingleTest] <;> omega

lemma filterMap_if_eq_filter_map {α β : Type} (p : α → Prop) [DecidablePred p]
    (f : α → β) :
    ∀ l : List α, (l.filterMap fun t => if p t then some (f t) else none)
      = (l.filter fun t => decide (p t)).map f
  | [] => rfl
  | a :: l => by
      by_cases h : p a <;>
        simp [List.filterMap_cons, List.filter_cons, h, filterMap_if_eq_filter_map p f l]

/-- C6 counterexample.  Two targets, one all-success (ten probes at 20 ms)
and one all-failure (ten failed probes): the ranked output does contain
exactly one entry, but the complete set of caller-visible notifications of
the run is two `testing` lines and one `complete` line — the number of
excluded targets is reported nowhere, refuting "the reported exclusion
count is 1". -/
theorem comparison_exclusion_counterexample :
    (fallbackDNSComparison [allSuccessTarget, allFailureTarget]).1.length = 1
    ∧ (fallbackDNSComparison [allSuccessTarget, allFailureTarget]).2
        = [LogEvent.testing "8.8.8.8", LogEvent.testing "1.1.1.1",
           LogEvent.complete "8.8.8.8"]
    ∧ ((fallbackDNSComparison [allSuccessTarget, allFailureTarget]).2.countP
        isExclusionReport) = 0 := by
  refine ⟨rfl, rfl, rfl⟩

/-- C6 amended.  Every target with zero successful samples is excluded from
the ranked result set (it is absent, not scored as zero): the collected
result set is exactly the targets with at least one success, in order, and
the ranked output has exactly that many entries; however, the caller is
*not* informed how many targets were excluded — no notification of the run
carries an exclusion count. -/
theorem comparison_exclusion_amended (targets : List (String × List (Option ℚ))) :
    collectFallbackResults targets
      = (targets.filter fun t => decide (0 < (t.2.filterMap id).length)).map
          (fun t => mkFallbackEntry t.1 t.2)
    ∧ (fallbackDNSComparison targets).1.length
      = ((targets.filter fun t => decide (0 < (t.2.filterMap id).length)).length)
    ∧ (fallbackDNSComparison targets).2.countP isExclusionReport = 0 := by
  have hcoll := filterMap_if_eq_filter_map
    (fun t : String × List (Option ℚ) => 0 < (t.2.filterMap id).length)
    (fun t => mkFallbackEntry t.1 t.2) targets
  refine ⟨hcoll, ?_, ?_⟩
  · rw [fallbackDNSComparison]
    split_ifs with h
    · simp only [List.length_nil]
      rw [collectFallbackResults, hcoll, List.length_map] at h
      omega
    · simp only [sortFallbackByAvg, List.length_insertionSort,
        collectFallbackResults, hcoll, List.length_map]
  · rw [fallbackDNSComparison]
    split_ifs with h <;>
      simp [List.countP_append, List.countP_map, isExclusionReport, Function.comp_def]

lemma comparisonLE_avg_eq :
    comparisonLE SortKey.avg = fun a b : SortEntry => a.avg ≤ b.avg := rfl

lemma comparisonLE_jitter_eq :
    comparisonLE SortKey.jitter = fun a b : SortEntry => a.jitter ≤ b.jitter := rfl

lemma comparisonLE_packetLoss_eq :
    comparisonLE SortKey.packetLoss = fun a b : SortEntry => a.packetLoss ≤ b.packetLoss := rfl

lemma comparisonLE_p95_eq :
    comparisonLE SortKey.p95 = fun a b : SortEntry => a.p95 ≤ b.p95 := rfl

lemma comparisonLE_successRate_eq :
    comparisonLE SortKey.successRate
      = fun a b : SortEntry => b.successRate ≤ a.successRate := rfl

/-- C7.  The default sort key is `avg`; re-sorting by any selectable key is
a pure permutation of the already-collected result set (no re-probing); the
ranking is ascending for the latency-like keys `avg`, `jitter`,
`packetLoss`, `p95` and descending for `successRate`. -/
theorem sort_key_ranking :
    defaultSortKey = SortKey.avg
    ∧ (∀ (results : List SortEntry) (k : SortKey),
        (sortComparison results k).Perm results)
    ∧ (∀ results : List SortEntry,
        List.Sorted (fun a b : SortEntry => a.avg ≤ b.avg)
          (sortComparison results SortKey.avg))
    ∧ (∀ results : List SortEntry,
        List.Sorted (fun a b : SortEntry => a.jitter ≤ b.jitter)
          (sortComparison results SortKey.jitter))
    ∧ (∀ results : List SortEntry,
        List.Sorted (fun a b : SortEntry => a.packetLoss ≤ b.packetLoss)
          (sortComparison results SortKey.packetLoss))
    ∧ (∀ results : List SortEntry,
        List.Sorted (fun a b : SortEntry => a.p95 ≤ b.p95)
          (sortComparison results SortKey.p95))
    ∧ (∀ results : List SortEntry,
        List.Sorted (fun a b : SortEntry => b.successRate ≤ a.successRate)
          (sortComparison results SortKey.successRate)) := by
  refine ⟨rfl, fun results k => List.perm_insertionSort _ _, ?_, ?_, ?_, ?_, ?_⟩
  · intro results
    rw [← comparisonLE_avg_eq]
    exact List.sorted_insertionSort _ results
  · intro results
    rw [← comparisonLE_jitter_eq]
    exact List.sorted_insertionSort _ results
  · intro results
    rw [← comparisonLE_packetLoss_eq]
    exact List.sorted_insertionSort _ results
  · intro results
    rw [← comparisonLE_p95_eq]
    exact List.sorted_insertionSort _ results
  · intro results
    rw [← comparisonLE_successRate_eq]
    exact List.sorted_insertionSort _ results

lemma foldl_min_le_init : ∀ (l : List ℚ) (a : ℚ), l.foldl min a ≤ a
  | [], a => le_refl a
  | b :: l, a => le_trans (foldl_min_le_init l (min a b)) (min_le_left a b)

lemma foldl_min_le_mem : ∀ (l : List ℚ) (a x : ℚ), x ∈ l → l.foldl min a ≤ x
  | [], _, _, hx => absurd hx (List.not_mem_nil _)
  | b :: l, a, x, hx => by
      rw [List.foldl_cons]
      rcases List.mem_cons.mp hx with h | hx'
      · subst h
        exact le_trans (foldl_min_le_init l (min a x)) (min_le_right a x)
      · exact foldl_min_le_mem l (min a b) x hx'

lemma le_foldl_max_init : ∀ (l : List ℚ) (a : ℚ), a ≤ l.foldl max a
  | [], a => le_refl a
  | b :: l, a => le_trans (le_max_left a b) (le_foldl_max_init l (max a b))

lemma le_foldl_max_mem : ∀ (l : List ℚ) (a x : ℚ), x ∈ l → x ≤ l.foldl max a
  | [], _, _, hx => absurd hx (List.not_mem_nil _)
  | b :: l, a, x, hx => by
      rw [List.foldl_cons]
      rcases List.mem_cons.mp hx with h | hx'
      · subst h
        exact le_trans (le_max_right a x) (le_foldl_max_init l (max a x))
      · exact le_foldl_max_mem l (max a b) x hx'

lemma jsMin_le_of_mem {l : List ℚ} {x : ℚ} (h : x ∈ l) : jsMin l ≤ x := by
  cases l with
  | nil => cases h
  | cons a as =>
      rcases List.mem_cons.mp h with h' | h'
      · subst h'
        exact foldl_min_le_init as x
      · exact foldl_min_le_mem as a x h'

lemma le_jsMax_of_mem {l : List ℚ} {x : ℚ} (h : x ∈ l) : x ≤ jsMax l := by
  cases l with
  | nil => cases h
  | cons a as =>
      rcases List.mem_cons.mp h with h' | h'
      · subst h'
        exact le_foldl_max_init as x
      · exact le_foldl_max_mem as a x h'

lemma length_sortAsc (l : List ℚ) : (sortAsc l).length = l.length :=
  List.length_insertionSort _ l

lemma mem_of_mem_sortAsc {l : List ℚ} {x : ℚ} (h : x ∈ sortAsc l) : x ∈ l :=
  (List.perm_insertionSort _ l).mem_iff.mp h

lemma getD_mem_of_lt {l : List ℚ} {n : ℕ} (h : n < l.length) : l.getD n 0 ∈ l := by
  rw [List.getD_eq_getElem l 0 h]
  exact List.getElem_mem h

lemma getMedian_eq (S : List ℚ) :
    getMedian S
      = if (sortAsc S).length % 2 = 1
          then (sortAsc S).getD ((sortAsc S).length / 2) 0
          else ((sortAsc S).getD ((sortAsc S).length / 2 - 1) 0
            + (sortAsc S).getD ((sortAsc S).length / 2) 0) / 2 := rfl

/-- C8.  For every non-empty list of successful latencies,
`min(S) ≤ median(S) ≤ max(S)`, where `getMedian` sorts ascending and takes
the middle element (odd length) or the mean of the two middle elements
(even length). -/
theorem median_between_min_and_max (S : List ℚ) (h : S ≠ []) :
    jsMin S ≤ getMedian S ∧ getMedian S ≤ jsMax S := by
  have hlen : S.length ≠ 0 := fun hl => h (List.length_eq_zero.mp hl)
  have hslen : (sortAsc S).length = S.length := length_sortAsc S
  rw [getMedian_eq]
  split_ifs with hpar
  · have hmid : (sortAsc S).length / 2 < (sortAsc S).length := by omega
    have hmem : (sortAsc S).getD ((sortAsc S).length / 2) 0 ∈ S :=
      mem_of_mem_sortAsc (getD_mem_of_lt hmid)
    exact ⟨jsMin_le_of_mem hmem, le_jsMax_of_mem hmem⟩
  · have hge2 : 2 ≤ (sortAsc S).length := by omega
    have hmid : (sortAsc S).length / 2 < (sortAsc S).length := by omega
    have hmid' : (sortAsc S).length / 2 - 1 < (sortAsc S).length := by omega
    have hmem : (sortAsc S).getD ((sortAsc S).length / 2) 0 ∈ S :=
      mem_of_mem_sortAsc (getD_mem_of_lt hmid)
    have hmem' : (sortAsc S).getD ((sortAsc S).length / 2 - 1) 0 ∈ S :=
      mem_of_mem_sortAsc (getD_mem_of_lt hmid')
    have h1 := jsMin_le_of_mem hmem
    have h2 := jsMin_le_of_mem hmem'
    have h3 := le_jsMax_of_mem hmem
    have h4 := le_jsMax_of_mem hmem'
    constructor <;> linarith

/-- Witness for C8 at `S = [30, 10, 20]`. -/
theorem median_between_min_and_max_witness :
    jsMin [30, 10, 20] ≤ getMedian [30, 10, 20]
    ∧ getMedian [30, 10, 20] ≤ jsMax [30, 10, 20] :=
  median_between_min_and_max [30, 10, 20] (List.cons_ne_nil _ _)

/-- C10.  `getMedian`, `getStdDev` and `percentile` leave their argument
array unchanged: the sorts they perform are applied to fresh copies
(`[...values]`, `values.slice()`), and `getStdDev` only folds.  The final
conjuncts show on `[20, 10]` that the internal sorted copy genuinely
differs from the argument while the argument survives unchanged. -/
theorem stats_functions_do_not_mutate_input (values : List ℚ) (p : ℚ) :
    (getMedianWithFrame values).2 = values
    ∧ (getStdDevWithFrame values).2 = values
    ∧ (percentileWithFrame values p).2 = values
    ∧ (getMedianWithFrame values).1 = getMedian values
    ∧ (getStdDevWithFrame values).1 = getStdDevVariance values
    ∧ (percentileWithFrame values p).1 = percentile values p
    ∧ sortAsc [20, 10] = [10, 20]
    ∧ (getMedianWithFrame [20, 10]).2 = [20, 10] := by
  refine ⟨rfl, rfl, rfl, rfl, rfl, rfl, ?_, rfl⟩
  norm_num [sortAsc, List.insertionSort, List.orderedInsert]

end NetworkAnalyzer
